import Mathlib

/-!
Verification development for the CS182A/282A special-participation portal
(`backend_api.py` and `ed_integration.py`).

The Python sources are embedded shallowly:

* the regex classifier `EdParticipationParser.parse_post` is embedded as
  executable matchers over `List Char` that implement exactly the regular
  expressions of the source (word boundaries `\b`, `\s*`/`\s+` gaps,
  greedy digit groups with leftmost-match search semantics);
* the in-memory `DataStore` and the query endpoints of `backend_api.py`
  are embedded as pure functions over an explicit store record.

Python's Unicode-aware character classes (`\w`, `\s`, `str.lower`,
`str.upper`, `str.isdigit`) are embedded with Lean's character predicates
(`Char.isAlphanum`, `Char.isWhitespace`, `Char.toLower`, `Char.toUpper`,
`Char.isDigit`); all concrete inputs considered here are ASCII, where the
two agree.
-/

/-! ## Classifier embedding (`src/ed_integration.py`, `EdParticipationParser`) -/

/-- Python regex word character (`\w`), ASCII fragment: letters, digits, `_`. -/
def isWordChar (c : Char) : Bool := c.isAlphanum || c = '_'

/-- Python regex whitespace (`\s`). -/
def isSpaceChar (c : Char) : Bool := c.isWhitespace

/-- Consume a literal character sequence at the head of the input;
returns the rest of the input on success. -/
def eatLit : List Char → List Char → Option (List Char)
  | [], s => some s
  | c :: cs, d :: s => if d = c then eatLit cs s else none
  | _ :: _, [] => none

/-- `\b` placed after a word character: the next character (if any) must be
a non-word character. -/
def boundaryAfter : List Char → Bool
  | [] => true
  | c :: _ => !isWordChar c

/-- Matcher for the alternative `\bLIT\s*x\b` (where `LIT` ends in a word
character and `x` is a letter) starting at the current position. `prev`
records whether the character just before the position is a word character. -/
def altWordGapLetter (lit : List Char) (x : Char) (prev : Bool) (s : List Char) : Bool :=
  !prev &&
    (match eatLit lit s with
     | some r =>
       (match r.dropWhile isSpaceChar with
        | c :: rest => c = x && boundaryAfter rest
        | [] => false)
     | none => false)

/-- Matcher for the alternative `\bLIT\b` starting at the current position. -/
def altWord (lit : List Char) (prev : Bool) (s : List Char) : Bool :=
  !prev &&
    (match eatLit lit s with
     | some r => boundaryAfter r
     | none => false)

/-- Matcher for the extra category-E alternative
`\bSpecial\s+Participation\s+E\b` (run case-insensitively on lower-cased
text, hence spelled in lower case) starting at the current position. -/
def altSpecialE (prev : Bool) (s : List Char) : Bool :=
  !prev &&
    (match eatLit "special".data s with
     | some r =>
       (match r with
        | c :: _ =>
          isSpaceChar c &&
            (match eatLit "participation".data (r.dropWhile isSpaceChar) with
             | some r2 =>
               (match r2 with
                | d :: _ =>
                  isSpaceChar d &&
                    (match r2.dropWhile isSpaceChar with
                     | e :: rest => e = 'e' && boundaryAfter rest
                     | [] => false)
                | [] => false)
             | none => false)
        | [] => false)
     | none => false)

/-- `re.search`: scan all positions left to right, tracking whether the
previous character is a word character, and report whether the positional
matcher succeeds anywhere. -/
def searchAt (m : Bool → List Char → Bool) : Bool → List Char → Bool
  | prev, [] => m prev []
  | prev, c :: rest => m prev (c :: rest) || searchAt m (isWordChar c) rest

/-- The participation categories, in the fixed order of
`PARTICIPATION_PATTERNS` (an insertion-ordered dict: A, B, C, D, E). -/
inductive PartCat | A | B | C | D | E
deriving DecidableEq, Repr

/-- The trigger letter of a category (patterns are lower case since the
search text is lower-cased). -/
def catLetter : PartCat → Char
  | .A => 'a'
  | .B => 'b'
  | .C => 'c'
  | .D => 'd'
  | .E => 'e'

/-- The string label stored for a category (the dict key in the source). -/
def catLabel : PartCat → String
  | .A => "A"
  | .B => "B"
  | .C => "C"
  | .D => "D"
  | .E => "E"

/-- Positional matcher for one category's pattern
`\bParticipation\s*x\b|\bpart\s*x\b|\bpx\b`, with the extra
`\bSpecial\s+Participation\s+E\b` alternative for E. -/
def catPat (c : PartCat) (prev : Bool) (s : List Char) : Bool :=
  altWordGapLetter "participation".data (catLetter c) prev s
  || altWordGapLetter "part".data (catLetter c) prev s
  || altWord ['p', catLetter c] prev s
  || (match c with
      | .E => altSpecialE prev s
      | _ => false)

/-- `re.search(pattern, text, re.IGNORECASE)` for one category over the
(lower-cased) search text. -/
def catMatches (c : PartCat) (text : List Char) : Bool :=
  searchAt (catPat c) false text

/-- The fixed priority order of PARTICIPATION_PATTERNS. -/
def PARTICIPATION_ORDER : List PartCat := [.A, .B, .C, .D, .E]

/-- The detection loop of `parse_post`: iterate the patterns in dict order
and stop at the first one that matches (`break`). -/
def findCategory : List PartCat → List Char → Option PartCat
  | [], _ => none
  | c :: rest, text => if catMatches c text then some c else findCategory rest text

/-- The participation pass of `parse_post`. -/
def participationOf (text : List Char) : Option PartCat :=
  findCategory PARTICIPATION_ORDER text

/-- A greedy digit group `(\d+)` followed by `\b`: the maximal digit run at
the current position, nonempty, whose following character is a non-word
character (or end of input). -/
def digitsBounded (s : List Char) : Option (List Char) :=
  match s.takeWhile Char.isDigit with
  | [] => none
  | ds => if boundaryAfter (s.dropWhile Char.isDigit) then some ds else none

/-- Alternative `\bhw\s*(\d+)\b` of HOMEWORK_PATTERN at the current position;
returns the captured digit group. -/
def hwAlt1 (prev : Bool) (s : List Char) : Option (List Char) :=
  if prev then none else
    match eatLit "hw".data s with
    | some r => digitsBounded (r.dropWhile isSpaceChar)
    | none => none

/-- Alternative `\bhomework\s*(\d+)\b` of HOMEWORK_PATTERN. -/
def hwAlt2 (prev : Bool) (s : List Char) : Option (List Char) :=
  if prev then none else
    match eatLit "homework".data s with
    | some r => digitsBounded (r.dropWhile isSpaceChar)
    | none => none

/-- Alternative `\bhw(\d+)\b` of HOMEWORK_PATTERN. -/
def hwAlt3 (prev : Bool) (s : List Char) : Option (List Char) :=
  if prev then none else
    match eatLit "hw".data s with
    | some r => digitsBounded r
    | none => none

/-- One position of HOMEWORK_PATTERN: try the three alternatives in order
and return the first non-empty captured group
(`hw_match.group(1) or hw_match.group(2) or hw_match.group(3)`). -/
def hwMatchAt (prev : Bool) (s : List Char) : Option (List Char) :=
  (hwAlt1 prev s) <|> (hwAlt2 prev s) <|> (hwAlt3 prev s)

/-- Leftmost match of HOMEWORK_PATTERN (`re.search`). -/
def searchHWFrom : Bool → List Char → Option (List Char)
  | prev, [] => hwMatchAt prev []
  | prev, c :: rest => (hwMatchAt prev (c :: rest)) <|> searchHWFrom (isWordChar c) rest

/-- One position of the fallback pattern `HW\s*(\d+)` (no word boundaries,
run case-insensitively on the lower-cased text). -/
def hwFallbackAt (s : List Char) : Option (List Char) :=
  match eatLit "hw".data s with
  | some r =>
    (match (r.dropWhile isSpaceChar).takeWhile Char.isDigit with
     | [] => none
     | ds => some ds)
  | none => none

/-- Leftmost match of the fallback pattern. -/
def searchHWFallback : List Char → Option (List Char)
  | [] => hwFallbackAt []
  | c :: rest => (hwFallbackAt (c :: rest)) <|> searchHWFallback rest

/-- Python `int` on a nonempty digit string. -/
def digitsVal (ds : List Char) : Nat :=
  ds.foldl (fun acc c => 10 * acc + (c.toNat - 48)) 0

/-- A homework-reference value as stored by the system: a number, the
sentinel `"N/A"`, or the sentinel `"unknown"`. -/
inductive HWRef | num (n : Int) | na | unknown
deriving DecidableEq, Repr

/-- The homework pass of `parse_post` for non-E posts: primary pattern
first, then the fallback pattern, else the sentinel `"unknown"`. -/
def homeworkOf (text : List Char) : HWRef :=
  match searchHWFrom false text with
  | some ds => .num (digitsVal ds)
  | none =>
    match searchHWFallback text with
    | some ds => .num (digitsVal ds)
    | none => .unknown

/-- The concatenated raw text `f"{title} {content} {category}"`. -/
def concatText (title content category : String) : String :=
  title ++ " " ++ content ++ " " ++ category

/-- The lower-cased search text of `parse_post`. -/
def searchTextOf (title content category : String) : List Char :=
  (concatText title content category).data.map Char.toLower

/-- The classification fields of `parse_post` used by the claims under
study.  The assistant-name pass is an independent third pass writing only
the separate `llm_agent` key; it does not influence these two fields. -/
structure ParseResult where
  participation_type : Option PartCat
  homework_number : HWRef
deriving DecidableEq, Repr

/-- `EdParticipationParser.parse_post`: participation pass first; if the
result is category E the homework reference is forced to `"N/A"`,
otherwise the homework pass runs.  (The dict field starts as `None` in the
source but is always overwritten on every path before returning.) -/
def parse_post (title content category : String) : ParseResult :=
  let text := searchTextOf title content category
  let pt := participationOf text
  { participation_type := pt
    homework_number := if pt = some .E then HWRef.na else homeworkOf text }

example : parse_post "Participation A - HW1 using Claude" "I used Claude..." "" =
    { participation_type := some .A, homework_number := .num 1 } := by decide

example : parse_post "HW0" "" "" =
    { participation_type := none, homework_number := .num 0 } := by decide

example : parse_post "HW01" "" "" =
    { participation_type := none, homework_number := .num 1 } := by decide

example : parse_post "Special Participation E HW3" "" "" =
    { participation_type := some .E, homework_number := .na } := by decide

example : parse_post "Participation a and Participation e" "HW3" "" =
    { participation_type := some .A, homework_number := .num 3 } := by decide

example : parse_post "pa" "" "" =
    { participation_type := some .A, homework_number := .unknown } := by decide

example : parse_post "part b" "" "" =
    { participation_type := some .B, homework_number := .unknown } := by decide

example : parse_post "xhw0 ok" "" "" =
    { participation_type := none, homework_number := .num 0 } := by decide

/-! ## Store embedding (`src/backend_api.py`, `DataStore` and endpoints)

Posts are stored as dicts produced by the Pydantic `Post` model
(`post.dict()`), so every key is always present; optional fields hold
`None` when absent.  The `homework_number` field, after the model's
validator, is `None`, an `int`, `"N/A"`, or `"unknown"` — embedded by
`Option HWRef`.  Python `set`s are embedded as duplicate-free lists grown
in insertion order (`addToSet`), which models a set with a deterministic
iteration order; set equality is expressed through `List.toFinset`. -/

/-- A stored post record (the dict of the Pydantic `Post` model). -/
structure Post where
  post_id : Int
  post_number : Option Int
  title : String
  author : String
  content : String
  participation_type : Option String
  homework_number : Option HWRef
  llm_agent : Option String
  timestamp : String
  url : String
  category : Option String
  pdf_urls : Option (List String)
deriving DecidableEq, Repr

/-- A stored submission record (the dict of the Pydantic `Submission`
model, the only shape reaching `DataStore.add_submission`). -/
structure Submission where
  name : String
  participation : String
  homework : Int
  llm : String
  post_url : String
  timestamp : String
deriving DecidableEq, Repr

/-- The composite key `(student, homework-as-text, llm)` of the
submissions dict. -/
abbrev SubKey := String × String × String

/-- The in-memory `DataStore`. -/
structure DataStore where
  posts : List Post
  submissions : List (SubKey × Submission)
  students : List String
  homeworks : List String
  llms : List String
deriving DecidableEq, Repr

/-- The store at process start (before any demo seeding). -/
def emptyStore : DataStore := ⟨[], [], [], [], []⟩

/-- Python `set.add`: insert a value if absent (insertion order kept). -/
def addToSet (l : List String) (x : String) : List String :=
  if x ∈ l then l else l ++ [x]

/-- Python `str(value)` on the homework field's value. -/
def hwRefStr : HWRef → String
  | .num n => toString n
  | .na => "N/A"
  | .unknown => "unknown"

/-- Python `str(post.get('homework_number'))`: `str(None)` is `"None"`. -/
def pyStrOptHW : Option HWRef → String
  | none => "None"
  | some h => hwRefStr h

/-- Python truthiness of the homework field: `None` and the integer `0`
are falsy; every other integer and both string sentinels are truthy. -/
def hwTruthy : Option HWRef → Bool
  | none => false
  | some (.num n) => n != 0
  | some .na => true
  | some .unknown => true

/-- `DataStore.add_post`: drop the first stored post with the same
identifier (if any), append the new record, and grow the three index
sets from the record's truthy fields. -/
def removeFirstById : List Post → Int → List Post
  | [], _ => []
  | p :: rest, i => if p.post_id = i then rest else p :: removeFirstById rest i

def add_post (db : DataStore) (p : Post) : DataStore :=
  { db with
    posts := removeFirstById db.posts p.post_id ++ [p]
    students := if p.author ≠ "" then addToSet db.students p.author else db.students
    homeworks :=
      if hwTruthy p.homework_number then
        addToSet db.homeworks (pyStrOptHW p.homework_number)
      else db.homeworks
    llms :=
      match p.llm_agent with
      | some s => if s ≠ "" then addToSet db.llms s else db.llms
      | none => db.llms }

/-- Python dict assignment `submissions[key] = value`: replace the entry
under the key in place, or append a new entry. -/
def upsertKey : List (SubKey × Submission) → SubKey → Submission → List (SubKey × Submission)
  | [], k, v => [(k, v)]
  | (k', v') :: rest, k, v =>
    if k' = k then (k, v) :: rest else (k', v') :: upsertKey rest k v

/-- `DataStore.add_submission`. -/
def add_submission (db : DataStore) (s : Submission) : DataStore :=
  { db with
    submissions := upsertKey db.submissions (s.name, toString s.homework, s.llm) s
    students := if s.name ≠ "" then addToSet db.students s.name else db.students
    homeworks := if s.homework ≠ 0 then addToSet db.homeworks (toString s.homework) else db.homeworks
    llms := if s.llm ≠ "" then addToSet db.llms s.llm else db.llms }

/-- A store mutation: the two upsert operations. -/
inductive StoreOp
  | postOp (p : Post)
  | subOp (s : Submission)
deriving DecidableEq, Repr

def applyOp (db : DataStore) : StoreOp → DataStore
  | .postOp p => add_post db p
  | .subOp s => add_submission db s

/-- The store reached by a sequence of upserts from the empty store. -/
def runOps (ops : List StoreOp) : DataStore := ops.foldl applyOp emptyStore

/-! ### Read views -/

/-- Insert into a `<`-sorted list of strings (Python `sorted` on
pairwise-distinct strings). -/
def sortStringsInsert (x : String) : List String → List String
  | [] => [x]
  | y :: ys => if y < x then y :: sortStringsInsert x ys else x :: y :: ys

/-- Python `sorted` on a list of pairwise-distinct strings
(lexicographic by code point). -/
def sortStrings : List String → List String
  | [] => []
  | x :: xs => sortStringsInsert x (sortStrings xs)

/-- `GET /api/students`: the known student names, sorted.  (The endpoint
wraps each name in `{"name": ...}`; the view is the name list.) -/
def get_students (db : DataStore) : List String := sortStrings db.students

/-- The sort key `int(x) if x.isdigit() else 0` of `get_homeworks`. -/
def pyHwKey (s : String) : Nat :=
  if !s.data.isEmpty && s.data.all Char.isDigit then digitsVal s.data else 0

/-- Stable insertion for the keyed sort (Python `sorted` is stable). -/
def insertByHwKey (x : String) : List String → List String
  | [] => [x]
  | y :: ys => if pyHwKey y < pyHwKey x then y :: insertByHwKey x ys else x :: y :: ys

def sortByHwKey : List String → List String
  | [] => []
  | x :: xs => insertByHwKey x (sortByHwKey xs)

structure HomeworkInfo where
  number : String
  students : List String
  llms : List String
deriving DecidableEq, Repr

/-- The per-homework scan of `get_homeworks`: collect the distinct truthy
authors and assistant names of stored posts whose stringified homework
reference equals the entry. -/
def hwScan (posts : List Post) (hw : String) : List String × List String :=
  posts.foldl
    (fun acc p =>
      if pyStrOptHW p.homework_number = hw then
        (if p.author ≠ "" then addToSet acc.1 p.author else acc.1,
         match p.llm_agent with
         | some s => if s ≠ "" then addToSet acc.2 s else acc.2
         | none => acc.2)
      else acc)
    ([], [])

/-- `GET /api/homeworks`. -/
def get_homeworks (db : DataStore) : List HomeworkInfo :=
  (sortByHwKey db.homeworks).map fun hw =>
    { number := hw, students := (hwScan db.posts hw).1, llms := (hwScan db.posts hw).2 }

structure LLMInfo where
  name : String
  students : List String
  homeworks : List String
deriving DecidableEq, Repr

/-- The per-assistant scan of `get_llms`. -/
def llmScan (posts : List Post) (llm : String) : List String × List String :=
  posts.foldl
    (fun acc p =>
      if p.llm_agent = some llm then
        (if p.author ≠ "" then addToSet acc.1 p.author else acc.1,
         if hwTruthy p.homework_number then addToSet acc.2 (pyStrOptHW p.homework_number)
         else acc.2)
      else acc)
    ([], [])

/-- `GET /api/llms`. -/
def get_llms (db : DataStore) : List LLMInfo :=
  (sortStrings db.llms).map fun llm =>
    { name := llm, students := (llmScan db.posts llm).1, homeworks := (llmScan db.posts llm).2 }

/-! ### `GET /api/posts` -/

/-- Python `str.split(sep)` for a one-character separator, keeping empty
components (`"".split(',') == ['']`). -/
def pySplitCharAux (sep : Char) : List Char → List Char → List String
  | [], acc => [⟨acc.reverse⟩]
  | c :: rest, acc =>
    if c = sep then ⟨acc.reverse⟩ :: pySplitCharAux sep rest []
    else pySplitCharAux sep rest (c :: acc)

def pySplitChar (sep : Char) (s : String) : List String := pySplitCharAux sep s.data []

/-- Python `str.strip()`: drop whitespace from both ends. -/
def pyStrip (s : String) : String :=
  ⟨((s.data.dropWhile isSpaceChar).reverse.dropWhile isSpaceChar).reverse⟩

/-- Python `[x.strip() for x in s.split(',')]`. -/
def pyTrimTokens (s : String) : List String := (pySplitChar ',' s).map pyStrip

/-- Python `str.upper` on one character, ASCII fragment:
a lower-case basic-latin letter is shifted to its upper-case letter,
everything else is unchanged. -/
def pyUpperChar (c : Char) : Char :=
  if c.toNat ≥ 97 ∧ c.toNat ≤ 122 then Char.ofNat (c.toNat - 32) else c

/-- Python `str.upper`, ASCII fragment. -/
def pyUpper (s : String) : String := ⟨s.data.map pyUpperChar⟩

/-- Python `[x.strip().upper() for x in s.split(',')]` (participation
filter tokens). -/
def pyUpperTrimTokens (s : String) : List String :=
  (pySplitChar ',' s).map fun t => pyUpper (pyStrip t)

/-- Stage 1 of `get_posts`: the participation-filter comprehension,
applied only when the query parameter is truthy (neither `None` nor the
empty string).  Tokens are trimmed and upper-cased; the stored category is
compared verbatim. -/
def stagePartFilter (l : List Post) (participation : Option String) : List Post :=
  match participation with
  | some s =>
    if s = "" then l else
      l.filter fun p =>
        match p.participation_type with
        | some v => (pyUpperTrimTokens s).contains v
        | none => false
  | none => l

/-- Stage 2: the author-filter comprehension (exact match on trimmed
tokens). -/
def stageStudentsFilter (l : List Post) (students : Option String) : List Post :=
  match students with
  | some s =>
    if s = "" then l else l.filter fun p => (pyTrimTokens s).contains p.author
  | none => l

/-- Stage 3: the homework-filter comprehension
(`p.get('homework_number') and str(p.get('homework_number')) in hw_list`:
a truthiness test on the stored reference, then string comparison). -/
def stageHwFilter (l : List Post) (homeworks : Option String) : List Post :=
  match homeworks with
  | some s =>
    if s = "" then l else
      l.filter fun p =>
        hwTruthy p.homework_number && (pyTrimTokens s).contains (pyStrOptHW p.homework_number)
  | none => l

/-- Stage 4: the assistant-filter comprehension. -/
def stageLlmFilter (l : List Post) (llms : Option String) : List Post :=
  match llms with
  | some s =>
    if s = "" then l else
      l.filter fun p =>
        match p.llm_agent with
        | some v => (pyTrimTokens s).contains v
        | none => false
  | none => l

/-- The filtering part of `get_posts`: the four comprehensions run in
sequence over a copy of the stored post list. -/
def get_posts_filtered (db : DataStore)
    (participation students homeworks llms : Option String) : List Post :=
  stageLlmFilter
    (stageHwFilter (stageStudentsFilter (stagePartFilter db.posts participation) students)
      homeworks)
    llms

/-- Python `s[:n]` on strings (first `n` code points). -/
def pyTake (s : String) (n : Nat) : String := ⟨s.data.take n⟩

/-- The display projection of `get_posts`.  All dict keys are present on
stored posts, so the `dict.get` defaults (`'Untitled'`, `'Unknown'`,
`'A'`, `'#'`) never fire; `post.get('pdf_urls', [])` yields `[]` when the
field is `None`-free but the key can be absent on demo records — embedded
by `Option.getD`. -/
structure PostView where
  post_id : Int
  post_number : Option Int
  title : String
  author : String
  participation : Option String
  content : String
  excerpt : String
  homework_number : Option HWRef
  llm_agent : Option String
  url : String
  pdf_urls : List String
  timestamp : String
  category : Option String
deriving DecidableEq, Repr

def projectPost (p : Post) : PostView :=
  { post_id := p.post_id
    post_number := p.post_number
    title := p.title
    author := p.author
    participation := p.participation_type
    content := p.content
    excerpt := if p.content.length > 150 then pyTake p.content 150 ++ "..." else p.content
    homework_number := p.homework_number
    llm_agent := p.llm_agent
    url := p.url
    pdf_urls := p.pdf_urls.getD []
    timestamp := p.timestamp
    category := p.category }

/-- `GET /api/posts`: filter, then project for display. -/
def get_posts (db : DataStore)
    (participation students homeworks llms : Option String) : List PostView :=
  (get_posts_filtered db participation students homeworks llms).map projectPost

/-! ### `generate_executive_summary` -/

theorem length_dropWhile_le {α : Type} (p : α → Bool) (l : List α) :
    (l.dropWhile p).length ≤ l.length := by
  induction l with
  | nil => simp
  | cons a l ih =>
    by_cases h : p a
    · simp only [List.dropWhile_cons, h, if_true, List.length_cons]
      omega
    · simp [List.dropWhile_cons, h]

/-- Python `str.split()` with no separator: the maximal nonspace runs. -/
def pyWords : List Char → List (List Char)
  | [] => []
  | c :: rest =>
    if isSpaceChar c then pyWords rest
    else
      (c :: rest).takeWhile (fun d => !isSpaceChar d)
        :: pyWords (rest.dropWhile (fun d => !isSpaceChar d))
termination_by l => l.length
decreasing_by
  · simp only [List.length_cons]
    omega
  · simp only [List.length_cons]
    exact Nat.lt_succ_of_le (length_dropWhile_le _ _)

/-- Python `f"{n:,}"`: decimal digits grouped in threes by commas
(helper working on the reversed digit list). -/
def commaGroupRev : List Char → List Char
  | a :: b :: c :: d :: rest => a :: b :: c :: ',' :: commaGroupRev (d :: rest)
  | l => l

def pyFmtComma (n : Nat) : String :=
  ⟨(commaGroupRev (toString n).data.reverse).reverse⟩

/-- `", ".join(...)`. -/
def joinComma (l : List String) : String := String.intercalate ", " l

/-- `" ".join(post.get('content','') for post in posts if post.get('content'))`. -/
def allContentOf (posts : List Post) : String :=
  String.intercalate " " ((posts.filter fun p => p.content ≠ "").map Post.content)

/-- The distinct authors of the candidate list
(`set(post.get('author','Unknown') for post in posts)`; the key is always
present, so the default never fires and empty authors are included). -/
def summaryAuthors (posts : List Post) : List String :=
  posts.foldl (fun acc p => addToSet acc p.author) []

/-- The distinct stringified truthy homework references
(`... if post.get('homework_number')`). -/
def summaryHomeworks (posts : List Post) : List String :=
  posts.foldl
    (fun acc p =>
      if hwTruthy p.homework_number then addToSet acc (pyStrOptHW p.homework_number) else acc)
    []

/-- The distinct truthy assistant names. -/
def summaryLlms (posts : List Post) : List String :=
  posts.foldl
    (fun acc p =>
      match p.llm_agent with
      | some s => if s ≠ "" then addToSet acc s else acc
      | none => acc)
    []

/-- The distinct truthy participation types. -/
def summaryParts (posts : List Post) : List String :=
  posts.foldl
    (fun acc p =>
      match p.participation_type with
      | some s => if s ≠ "" then addToSet acc s else acc
      | none => acc)
    []

/-- `all_content.split('.')[:5]`, stripped and joined
(`' '.join(s.strip() for s in sentences if s.strip())`). -/
def keyPointsOf (allContent : String) : String :=
  String.intercalate " "
    ((((pySplitChar '.' allContent).take 5).map pyStrip).filter fun s => s ≠ "")

/-- One detail block of the summary:
`f"{i}. {title} by {author}\n   {content_preview}\n\n"` with the preview
truncated at 200 characters. -/
def detailBlock (i : Nat) (p : Post) : String :=
  let preview := if p.content.length > 200 then pyTake p.content 200 ++ "..." else p.content
  toString i ++ ". " ++ p.title ++ " by " ++ p.author ++ "\n   " ++ preview ++ "\n\n"

/-- The detail blocks of `posts[:3]`, numbered from `i`. -/
def detailBlocks : Nat → List Post → String
  | _, [] => ""
  | i, p :: ps => detailBlock i p ++ detailBlocks (i + 1) ps

/-- `f"- Total Posts Analyzed: {len(posts)}\n"`. -/
def totalPostsLine (posts : List Post) : String :=
  "- Total Posts Analyzed: " ++ toString posts.length ++ "\n"

/-- `f"- Total Content Length: {word_count:,} words, {char_count:,} characters\n"`. -/
def contentLengthLine (allContent : String) : String :=
  "- Total Content Length: " ++ pyFmtComma (pyWords allContent.data).length
    ++ " words, " ++ pyFmtComma allContent.length ++ " characters\n"

/-- `f"- Authors: {', '.join(sorted(authors))}\n"`. -/
def authorsLine (posts : List Post) : String :=
  "- Authors: " ++ joinComma (sortStrings (summaryAuthors posts)) ++ "\n"

/-- `f"- Homework Assignments: ...\n"` (sorted with the digit key). -/
def homeworksLine (posts : List Post) : String :=
  "- Homework Assignments: " ++ joinComma (sortByHwKey (summaryHomeworks posts)) ++ "\n"

/-- `f"- LLM Agents Used: ...\n"`. -/
def llmsLine (posts : List Post) : String :=
  "- LLM Agents Used: " ++ joinComma (sortStrings (summaryLlms posts)) ++ "\n"

/-- `f"- Participation Types: ...\n\n"`. -/
def partTypesLine (posts : List Post) : String :=
  "- Participation Types: " ++ joinComma (sortStrings (summaryParts posts)) ++ "\n\n"

/-- `f"- Key Points: ...\n\n"`. -/
def keyPointsLine (allContent : String) : String :=
  "- Key Points: " ++ keyPointsOf allContent ++ "\n\n"

/-- `f"... and {len(posts) - 3} more post(s)\n"`, appended only when the
candidate list exceeds three posts. -/
def morePostsNote (posts : List Post) : String :=
  if posts.length > 3 then
    "... and " ++ toString (posts.length - 3) ++ " more post(s)\n"
  else ""

/-- The 50-character rule `'='*50` of the summary header. -/
def eqRule : String := ⟨List.replicate 50 '='⟩

/-- The overview section of the summary (the first group of `summary +=`
lines of the source). -/
def summaryOverview (posts : List Post) (allContent : String) : String :=
  ("Executive Summary\n" ++ eqRule ++ "\n\nOverview:\n")
  ++ totalPostsLine posts
  ++ contentLengthLine allContent
  ++ authorsLine posts
  ++ homeworksLine posts
  ++ llmsLine posts
  ++ partTypesLine posts

/-- The content-analysis section. -/
def summaryContentAnalysis (allContent : String) : String :=
  "Content Analysis:\n" ++ keyPointsLine allContent

/-- The details section, with the trailing `... and N more post(s)` note
when more than three posts were summarized. -/
def summaryDetails (posts : List Post) : String :=
  "Details:\n" ++ detailBlocks 1 (posts.take 3) ++ morePostsNote posts

/-- `generate_executive_summary`. -/
def generate_executive_summary (posts : List Post) : String :=
  if posts = [] then "No posts available to generate summary."
  else
    let allContent := allContentOf posts
    if allContent = "" then "No content available in posts to generate summary."
    else
      summaryOverview posts allContent
      ++ summaryContentAnalysis allContent
      ++ summaryDetails posts

/-! ### `GET /api/submissions` (`get_submission`) -/

/-- The `homework` key of the response dict: initially the echoed query
string; overwritten by the stored submission's integer when a stored
submission is merged in (`result.update(submission)`). -/
inductive HwEcho
  | ofQuery (s : String)
  | ofSub (n : Int)
deriving DecidableEq, Repr

/-- The response dict of `get_submission`.  The last four fields are the
keys added only by `result.update(submission)`; they are `none` when no
stored submission exists under the composite key. -/
structure SubmissionResponse where
  summary : String
  pdfUrl : Option String
  pdfUrls : List String
  student : String
  homework : HwEcho
  llm : String
  post_count : Nat
  name : Option String
  participation : Option String
  post_url : Option String
  sub_timestamp : Option String
deriving DecidableEq, Repr

/-- Python `dict.get` on the submissions dict. -/
def lookupSub : List (SubKey × Submission) → SubKey → Option Submission
  | [], _ => none
  | (k', v) :: rest, k => if k' = k then some v else lookupSub rest k

/-- The matching-posts scan of `get_submission`:
author equal, `str(homework_number) == str(homework)` (the query
parameter is already a string), assistant name equal. -/
def matchingPosts (db : DataStore) (student homework llm : String) : List Post :=
  db.posts.filter fun p =>
    p.author == student
      && pyStrOptHW p.homework_number == homework
      && p.llm_agent == some llm

/-- The PDF-URL collection loop of `get_submission` (`pdf_urls` is always
a list in stored records, so the `isinstance` non-list branch is dead;
`if post.get('pdf_urls')` is a truthiness test, skipping `None` and `[]`). -/
def collectPdfUrls (posts : List Post) : List String :=
  posts.foldl
    (fun acc p =>
      match p.pdf_urls with
      | some l => if l ≠ [] then acc ++ l else acc
      | none => acc)
    []

/-- `get_submission`: look up the composite key, scan matching posts,
generate the summary, and merge the stored submission when present
(re-filling `summary` only if the merged dict left it empty — the stored
`Submission` dicts carry no `summary` key, so this is dead in practice). -/
def get_submission (db : DataStore) (student homework llm : String) : SubmissionResponse :=
  let submission := lookupSub db.submissions (student, homework, llm)
  let matching := matchingPosts db student homework llm
  let pdfUrls := collectPdfUrls matching
  let summary := generate_executive_summary matching
  let base : SubmissionResponse :=
    { summary := summary
      pdfUrl := pdfUrls.head?
      pdfUrls := pdfUrls
      student := student
      homework := .ofQuery homework
      llm := llm
      post_count := matching.length
      name := none
      participation := none
      post_url := none
      sub_timestamp := none }
  match submission with
  | none => base
  | some sub =>
    let merged : SubmissionResponse :=
      { base with
        name := some sub.name
        participation := some sub.participation
        homework := .ofSub sub.homework
        llm := sub.llm
        post_url := some sub.post_url
        sub_timestamp := some sub.timestamp }
    if merged.summary = "" then { merged with summary := summary } else merged

/-! ## C1: the index sets versus the values observed on stored records -/

/-- Spec-side (claim wording): the set of author values observed across
the currently stored posts and submissions ("incorporate author into the
known-students set if present"). -/
def observedStudents (db : DataStore) : Finset String :=
  (db.posts.filterMap fun p => if p.author = "" then none else some p.author).toFinset ∪
    ((db.submissions.map fun kv => kv.2.name).filter fun s => s ≠ "").toFinset

/-- Spec-side (claim wording): the stringified homework references
observed across the currently stored posts and submissions. -/
def observedHomeworks (db : DataStore) : Finset String :=
  (db.posts.filterMap fun p => p.homework_number.map hwRefStr).toFinset ∪
    (db.submissions.map fun kv => toString kv.2.homework).toFinset

/-- Spec-side (claim wording): the assistant names observed across the
currently stored posts and submissions. -/
def observedLlms (db : DataStore) : Finset String :=
  (db.posts.filterMap fun p =>
      match p.llm_agent with
      | some s => if s = "" then none else some s
      | none => none).toFinset ∪
    ((db.submissions.map fun kv => kv.2.llm).filter fun s => s ≠ "").toFinset

/-- The contribution of one upsert to the known-students set
(the truthiness guards of `add_post`/`add_submission`). -/
def opStudentVals : StoreOp → List String
  | .postOp p => if p.author ≠ "" then [p.author] else []
  | .subOp s => if s.name ≠ "" then [s.name] else []

/-- The contribution of one upsert to the known-homeworks set. -/
def opHomeworkVals : StoreOp → List String
  | .postOp p => if hwTruthy p.homework_number then [pyStrOptHW p.homework_number] else []
  | .subOp s => if s.homework ≠ 0 then [toString s.homework] else []

/-- The contribution of one upsert to the known-assistants set. -/
def opLlmVals : StoreOp → List String
  | .postOp p =>
    match p.llm_agent with
    | some v => if v ≠ "" then [v] else []
    | none => []
  | .subOp s => if s.llm ≠ "" then [s.llm] else []

theorem toFinset_addToSet (l : List String) (x : String) :
    (addToSet l x).toFinset = insert x l.toFinset := by
  unfold addToSet
  split
  · rename_i h
    exact (Finset.insert_eq_self.2 (List.mem_toFinset.2 h)).symm
  · ext a
    simp [or_comm]

theorem applyOp_students (db : DataStore) (op : StoreOp) :
    ((applyOp db op).students).toFinset
      = db.students.toFinset ∪ (opStudentVals op).toFinset := by
  cases op with
  | postOp p =>
    by_cases h : p.author = ""
    · simp [applyOp, add_post, opStudentVals, h]
    · simp only [applyOp, add_post, opStudentVals, h, if_neg, ne_eq, not_false_iff, if_pos,
        toFinset_addToSet]
      ext a
      simp [h, or_comm]
  | subOp s =>
    by_cases h : s.name = ""
    · simp [applyOp, add_submission, opStudentVals, h]
    · simp only [applyOp, add_submission, opStudentVals, h, ne_eq, not_false_iff, if_pos,
        toFinset_addToSet]
      ext a
      simp [h, or_comm]

theorem applyOp_homeworks (db : DataStore) (op : StoreOp) :
    ((applyOp db op).homeworks).toFinset
      = db.homeworks.toFinset ∪ (opHomeworkVals op).toFinset := by
  cases op with
  | postOp p =>
    by_cases h : hwTruthy p.homework_number
    · simp only [applyOp, add_post, opHomeworkVals, h, if_pos, toFinset_addToSet]
      ext a
      simp [or_comm]
    · simp [applyOp, add_post, opHomeworkVals, h]
  | subOp s =>
    by_cases h : s.homework = 0
    · simp [applyOp, add_submission, opHomeworkVals, h]
    · simp only [applyOp, add_submission, opHomeworkVals, h, ne_eq, not_false_iff, if_pos,
        toFinset_addToSet]
      ext a
      simp [h, or_comm]

theorem applyOp_llms (db : DataStore) (op : StoreOp) :
    ((applyOp db op).llms).toFinset
      = db.llms.toFinset ∪ (opLlmVals op).toFinset := by
  cases op with
  | postOp p =>
    cases hl : p.llm_agent with
    | none => simp [applyOp, add_post, opLlmVals, hl]
    | some v =>
      by_cases h : v = ""
      · simp [applyOp, add_post, opLlmVals, hl, h]
      · simp only [applyOp, add_post, opLlmVals, hl, h, ne_eq, not_false_iff, if_pos,
          toFinset_addToSet]
        ext a
        simp [h, or_comm]
  | subOp s =>
    by_cases h : s.llm = ""
    · simp [applyOp, add_submission, opLlmVals, h]
    · simp only [applyOp, add_submission, opLlmVals, h, ne_eq, not_false_iff, if_pos,
        toFinset_addToSet]
      ext a
      simp [h, or_comm]

theorem runOps_sets_aux (ops : List StoreOp) : ∀ db : DataStore,
    ((ops.foldl applyOp db).students).toFinset
        = db.students.toFinset ∪ (ops.flatMap opStudentVals).toFinset
    ∧ ((ops.foldl applyOp db).homeworks).toFinset
        = db.homeworks.toFinset ∪ (ops.flatMap opHomeworkVals).toFinset
    ∧ ((ops.foldl applyOp db).llms).toFinset
        = db.llms.toFinset ∪ (ops.flatMap opLlmVals).toFinset := by
  induction ops with
  | nil => intro db; simp
  | cons op rest ih =>
    intro db
    refine ⟨?_, ?_, ?_⟩
    · rw [List.foldl_cons, (ih (applyOp db op)).1, applyOp_students]
      ext a
      simp only [List.flatMap_cons, List.toFinset_append, Finset.mem_union]
      tauto
    · rw [List.foldl_cons, (ih (applyOp db op)).2.1, applyOp_homeworks]
      ext a
      simp only [List.flatMap_cons, List.toFinset_append, Finset.mem_union]
      tauto
    · rw [List.foldl_cons, (ih (applyOp db op)).2.2, applyOp_llms]
      ext a
      simp only [List.flatMap_cons, List.toFinset_append, Finset.mem_union]
      tauto

/-- A concrete post record used in counterexamples: identifier 1,
author Alice, no classification fields. -/
def exPostAlice : Post :=
  { post_id := 1, post_number := none, title := "t1", author := "Alice", content := ""
    participation_type := none, homework_number := none, llm_agent := none
    timestamp := "", url := "u", category := none, pdf_urls := none }

/-- The same identifier upserted again with author Bob. -/
def exPostBob : Post := { exPostAlice with author := "Bob" }

/-- C1 counterexample: after upserting identifier 1 with author Alice and
then re-upserting identifier 1 with author Bob, the known-students set
still contains Alice, but no currently stored post or submission carries
the author Alice — the index set does not equal the set of values
observed across the currently stored records. -/
theorem c1_counterexample :
    ¬ (((runOps [.postOp exPostAlice, .postOp exPostBob]).students).toFinset
        = observedStudents (runOps [.postOp exPostAlice, .postOp exPostBob])) := by
  decide

/-- C1 (amended): for every reachable store state, the known-students,
known-homeworks and known-assistants index sets equal the sets of truthy
values (non-empty author and assistant name; homework reference that is
present and, if numeric, nonzero) observed across ALL records ever
upserted — including since-replaced posts — not the values observed on
the currently stored records only. -/
theorem c1_index_sets_equal_upsert_history (ops : List StoreOp) :
    ((runOps ops).students).toFinset = (ops.flatMap opStudentVals).toFinset
    ∧ ((runOps ops).homeworks).toFinset = (ops.flatMap opHomeworkVals).toFinset
    ∧ ((runOps ops).llms).toFinset = (ops.flatMap opLlmVals).toFinset := by
  have h := runOps_sets_aux ops emptyStore
  simpa [runOps, emptyStore] using h

/-! ## C7 and C8: upsert replacement and idempotence -/

theorem map_removeFirstById (l : List Post) (i : Int) :
    (removeFirstById l i).map Post.post_id = (l.map Post.post_id).erase i := by
  induction l with
  | nil => rfl
  | cons p rest ih =>
    by_cases h : p.post_id = i
    · simp [removeFirstById, h, List.erase_cons]
    · simp [removeFirstById, h, List.erase_cons, ih]

theorem not_mem_removeFirstById (l : List Post) (i : Int)
    (h : (l.map Post.post_id).Nodup) :
    i ∉ (removeFirstById l i).map Post.post_id := by
  rw [map_removeFirstById]
  intro hm
  exact ((h.mem_erase_iff).1 hm).1 rfl

theorem nodup_ids_applyOp (db : DataStore) (op : StoreOp)
    (h : (db.posts.map Post.post_id).Nodup) :
    ((applyOp db op).posts.map Post.post_id).Nodup := by
  cases op with
  | subOp s => simpa [applyOp, add_submission] using h
  | postOp p =>
    simp only [applyOp, add_post, List.map_append, List.map_cons, List.map_nil,
      map_removeFirstById]
    rw [List.nodup_append]
    refine ⟨h.erase _, List.nodup_singleton _, ?_⟩
    intro a ha hb
    simp only [List.mem_singleton] at hb
    subst hb
    exact ((h.mem_erase_iff).1 ha).1 rfl

theorem nodup_ids_runOps_aux (ops : List StoreOp) : ∀ db : DataStore,
    (db.posts.map Post.post_id).Nodup →
      (((ops.foldl applyOp db).posts).map Post.post_id).Nodup := by
  induction ops with
  | nil => intro db h; simpa using h
  | cons op rest ih =>
    intro db h
    exact ih (applyOp db op) (nodup_ids_applyOp db op h)

theorem nodup_ids_runOps (ops : List StoreOp) :
    (((runOps ops).posts).map Post.post_id).Nodup :=
  nodup_ids_runOps_aux ops emptyStore (by simp [emptyStore])

/-- C7 (confirmed): upserting a record whose identifier is already
present in a reachable store leaves exactly one stored post with that
identifier, whose fields are exactly the new record's fields, placed at
the end of the post list, and keeps post identifiers globally unique. -/
theorem c7_upsert_replaces_whole_record (ops : List StoreOp) (q : Post)
    (h : q.post_id ∈ (runOps ops).posts.map Post.post_id) :
    ((add_post (runOps ops) q).posts.filter fun r => r.post_id == q.post_id) = [q]
    ∧ (add_post (runOps ops) q).posts.getLast? = some q
    ∧ (((add_post (runOps ops) q).posts.map Post.post_id)).Nodup := by
  have hnd := nodup_ids_runOps ops
  refine ⟨?_, ?_, ?_⟩
  · simp only [add_post]
    rw [List.filter_append]
    have h1 : (List.filter (fun r => r.post_id == q.post_id)
        (removeFirstById (runOps ops).posts q.post_id)) = [] := by
      rw [List.filter_eq_nil_iff]
      intro a ha
      have hmem : a.post_id ∈ (removeFirstById (runOps ops).posts q.post_id).map Post.post_id :=
        List.mem_map_of_mem Post.post_id ha
      rw [map_removeFirstById] at hmem
      have hne := ((hnd.mem_erase_iff).1 hmem).1
      simpa using hne
    rw [h1]
    simp
  · simp [add_post, List.getLast?_concat]
  · exact nodup_ids_applyOp (runOps ops) (.postOp q) hnd

/-- A re-upsert of identifier 1 with different field values. -/
def exPostAliceV2 : Post :=
  { exPostAlice with title := "t2", content := "updated", homework_number := some (.num 2) }

theorem c7_witness :
    exPostAliceV2.post_id ∈ (runOps [.postOp exPostAlice]).posts.map Post.post_id
    ∧ ((add_post (runOps [.postOp exPostAlice]) exPostAliceV2).posts.filter
        fun r => r.post_id == exPostAliceV2.post_id) = [exPostAliceV2]
    ∧ (add_post (runOps [.postOp exPostAlice]) exPostAliceV2).posts.getLast? = some exPostAliceV2
    ∧ (((add_post (runOps [.postOp exPostAlice]) exPostAliceV2).posts.map Post.post_id)).Nodup := by
  have hmem : exPostAliceV2.post_id ∈ (runOps [.postOp exPostAlice]).posts.map Post.post_id := by
    decide
  have h := c7_upsert_replaces_whole_record [.postOp exPostAlice] exPostAliceV2 hmem
  exact ⟨hmem, h.1, h.2.1, h.2.2⟩

theorem removeFirstById_append_of_not_mem (l l' : List Post) (i : Int)
    (h : i ∉ l.map Post.post_id) :
    removeFirstById (l ++ l') i = l ++ removeFirstById l' i := by
  induction l with
  | nil => simp
  | cons p rest ih =>
    have h1 : p.post_id ≠ i := by
      intro hh
      exact h (by simp [hh])
    have h2 : i ∉ rest.map Post.post_id := by
      intro hh
      exact h (by simp [hh])
    simp [removeFirstById, h1, ih h2]

theorem removeFirstById_singleton (p : Post) : removeFirstById [p] p.post_id = [] := by
  simp [removeFirstById]

theorem addToSet_mem (l : List String) (x : String) : x ∈ addToSet l x := by
  unfold addToSet
  split
  · assumption
  · simp

theorem addToSet_idem (l : List String) (x : String) :
    addToSet (addToSet l x) x = addToSet l x := by
  have hx := addToSet_mem l x
  show (if x ∈ addToSet l x then addToSet l x else addToSet l x ++ [x]) = addToSet l x
  rw [if_pos hx]

theorem add_post_idem (db : DataStore) (p : Post)
    (h : (db.posts.map Post.post_id).Nodup) :
    add_post (add_post db p) p = add_post db p := by
  have hposts : removeFirstById ((removeFirstById db.posts p.post_id) ++ [p]) p.post_id
      = removeFirstById db.posts p.post_id := by
    rw [removeFirstById_append_of_not_mem _ _ _ (not_mem_removeFirstById db.posts p.post_id h),
      removeFirstById_singleton]
    simp
  simp only [add_post, DataStore.mk.injEq]
  refine ⟨by rw [hposts], trivial, ?_, ?_, ?_⟩
  · by_cases ha : p.author = "" <;> simp [ha, addToSet_idem]
  · by_cases hh : hwTruthy p.homework_number <;> simp [hh, addToSet_idem]
  · cases hl : p.llm_agent with
    | none => simp
    | some v => by_cases hv : v = "" <;> simp [hv, addToSet_idem]

/-- C8 (confirmed): upserting the identical post record twice in a row on
a reachable store yields the same listStudents, listHomeworks and
listAssistants output as upserting it once. -/
theorem c8_double_upsert_views_unchanged (ops : List StoreOp) (p : Post) :
    get_students (add_post (add_post (runOps ops) p) p) = get_students (add_post (runOps ops) p)
    ∧ get_homeworks (add_post (add_post (runOps ops) p) p)
        = get_homeworks (add_post (runOps ops) p)
    ∧ get_llms (add_post (add_post (runOps ops) p) p) = get_llms (add_post (runOps ops) p) := by
  rw [add_post_idem (runOps ops) p (nodup_ids_runOps ops)]
  exact ⟨rfl, rfl, rfl⟩

/-! ## C2 and C10: `get_posts` filter semantics -/

/-- Amended participation clause: tokens upper-cased, stored category
compared verbatim; an absent or empty parameter imposes no constraint. -/
def amendPartOk (participation : Option String) (p : Post) : Bool :=
  match participation with
  | none => true
  | some s =>
    if s = "" then true else
      match p.participation_type with
      | some v => (pyUpperTrimTokens s).contains v
      | none => false

/-- Author clause: exact string membership in the trimmed token list. -/
def amendStudentsOk (students : Option String) (p : Post) : Bool :=
  match students with
  | none => true
  | some s => if s = "" then true else (pyTrimTokens s).contains p.author

/-- Amended homework clause: the stored reference must be truthy (present
and, if numeric, nonzero) AND its string form must be in the token list. -/
def amendHwOk (homeworks : Option String) (p : Post) : Bool :=
  match homeworks with
  | none => true
  | some s =>
    if s = "" then true else
      hwTruthy p.homework_number && (pyTrimTokens s).contains (pyStrOptHW p.homework_number)

/-- Claim-side homework clause (the claim as stated): a post whose
stringified homework reference — including `"0"` — appears in the token
list is returned; no truthiness requirement. -/
def claimHwOk (homeworks : Option String) (p : Post) : Bool :=
  match homeworks with
  | none => true
  | some s =>
    if s = "" then true else
      match p.homework_number with
      | some hr => (pyTrimTokens s).contains (hwRefStr hr)
      | none => false

/-- Assistant clause: exact membership; posts without an assistant never
match a provided assistant filter. -/
def amendLlmOk (llms : Option String) (p : Post) : Bool :=
  match llms with
  | none => true
  | some s =>
    if s = "" then true else
      match p.llm_agent with
      | some v => (pyTrimTokens s).contains v
      | none => false

theorem filter_pipeline (l : List Post) (g1 g2 g3 g4 : Post → Bool) :
    (((l.filter g1).filter g2).filter g3).filter g4
      = l.filter fun p => g1 p && g2 p && g3 p && g4 p := by
  simp only [List.filter_filter]
  apply List.filter_congr
  intro a _
  cases g1 a <;> cases g2 a <;> cases g3 a <;> cases g4 a <;> rfl

theorem stagePartFilter_eq (l : List Post) (f : Option String) :
    stagePartFilter l f = l.filter (amendPartOk f) := by
  rcases f with _ | s
  · refine (List.filter_eq_self.2 fun a _ => by simp [amendPartOk]).symm
  · by_cases hs : s = ""
    · subst hs
      simp only [stagePartFilter, if_pos rfl]
      refine (List.filter_eq_self.2 fun a _ => by simp [amendPartOk]).symm
    · simp only [stagePartFilter, hs, if_neg, if_false]
      apply List.filter_congr
      intro a _
      simp [amendPartOk, hs]

theorem stageStudentsFilter_eq (l : List Post) (f : Option String) :
    stageStudentsFilter l f = l.filter (amendStudentsOk f) := by
  rcases f with _ | s
  · refine (List.filter_eq_self.2 fun a _ => by simp [amendStudentsOk]).symm
  · by_cases hs : s = ""
    · subst hs
      simp only [stageStudentsFilter, if_pos rfl]
      refine (List.filter_eq_self.2 fun a _ => by simp [amendStudentsOk]).symm
    · simp only [stageStudentsFilter, hs, if_neg, if_false]
      apply List.filter_congr
      intro a _
      simp [amendStudentsOk, hs]

theorem stageHwFilter_eq (l : List Post) (f : Option String) :
    stageHwFilter l f = l.filter (amendHwOk f) := by
  rcases f with _ | s
  · refine (List.filter_eq_self.2 fun a _ => by simp [amendHwOk]).symm
  · by_cases hs : s = ""
    · subst hs
      simp only [stageHwFilter, if_pos rfl]
      refine (List.filter_eq_self.2 fun a _ => by simp [amendHwOk]).symm
    · simp only [stageHwFilter, hs, if_neg, if_false]
      apply List.filter_congr
      intro a _
      simp [amendHwOk, hs]

theorem stageLlmFilter_eq (l : List Post) (f : Option String) :
    stageLlmFilter l f = l.filter (amendLlmOk f) := by
  rcases f with _ | s
  · refine (List.filter_eq_self.2 fun a _ => by simp [amendLlmOk]).symm
  · by_cases hs : s = ""
    · subst hs
      simp only [stageLlmFilter, if_pos rfl]
      refine (List.filter_eq_self.2 fun a _ => by simp [amendLlmOk]).symm
    · simp only [stageLlmFilter, hs, if_neg, if_false]
      apply List.filter_congr
      intro a _
      simp [amendLlmOk, hs]

/-- The conjunction form of the `get_posts` filter (shared helper). -/
theorem get_posts_filtered_eq_filter (db : DataStore) (f1 f2 f3 f4 : Option String) :
    get_posts_filtered db f1 f2 f3 f4
      = db.posts.filter fun p =>
          amendPartOk f1 p && amendStudentsOk f2 p && amendHwOk f3 p && amendLlmOk f4 p := by
  rw [get_posts_filtered, stagePartFilter_eq, stageStudentsFilter_eq, stageHwFilter_eq,
    stageLlmFilter_eq, filter_pipeline]

/-- A stored post whose homework reference is the integer 0. -/
def exPostHw0 : Post := { exPostAlice with homework_number := some (.num 0) }

/-- C2 counterexample: with one stored post whose homework reference is
the integer 0 and the homework filter `"0"`, the claim's semantics (a
post whose stringified homework reference, including `"0"`, appears in
the filter list is returned) keeps the post, but `get_posts` returns the
empty list: its truthiness guard discards homework reference 0. -/
theorem c2_counterexample :
    get_posts_filtered (runOps [.postOp exPostHw0]) none none (some "0") none
      ≠ (runOps [.postOp exPostHw0]).posts.filter fun p =>
          amendPartOk none p && amendStudentsOk none p && claimHwOk (some "0") p
            && amendLlmOk none p := by
  decide

/-- C2 (amended): `get_posts` returns exactly the stored posts satisfying
the conjunction of the provided filters — participation with upper-cased
tokens against the verbatim stored category, author and assistant by
exact match, homework references compared as strings BUT additionally
required to be truthy (a stored reference of `0`, like an absent one, is
never returned once a homework filter is provided) — and an absent or
empty filter imposes no constraint. -/
theorem c2_get_posts_filter_conjunction (db : DataStore) (f1 f2 f3 f4 : Option String) :
    get_posts_filtered db f1 f2 f3 f4
      = db.posts.filter fun p =>
          amendPartOk f1 p && amendStudentsOk f2 p && amendHwOk f3 p && amendLlmOk f4 p :=
  get_posts_filtered_eq_filter db f1 f2 f3 f4

theorem toNat_charOfNat_of_valid {n : Nat} (h : n.isValidChar) :
    (Char.ofNat n).toNat = n := by
  rw [Char.ofNat, dif_pos h]
  rfl

theorem pyUpperChar_ne_lower_a (c : Char) : pyUpperChar c ≠ 'a' := by
  intro hc
  unfold pyUpperChar at hc
  by_cases h : c.toNat ≥ 97 ∧ c.toNat ≤ 122
  · rw [if_pos h] at hc
    have hv : (c.toNat - 32).isValidChar := Or.inl (by omega)
    have h2 := congrArg Char.toNat hc
    rw [toNat_charOfNat_of_valid hv] at h2
    have h97 : Char.toNat 'a' = 97 := rfl
    rw [h97] at h2
    omega
  · rw [if_neg h] at hc
    subst hc
    exact h (by decide)

theorem pyUpper_ne_lower_a (s : String) : pyUpper s ≠ "a" := by
  intro h
  have hd : s.data.map pyUpperChar = ['a'] := congrArg String.data h
  cases hsd : s.data with
  | nil => rw [hsd] at hd; simp at hd
  | cons c rest =>
    rw [hsd] at hd
    simp only [List.map_cons, List.cons.injEq] at hd
    exact pyUpperChar_ne_lower_a c hd.1

/-- C10 (confirmed): only the participation filter tokens are upper-cased
while the stored category is compared verbatim, so a post stored with the
lower-case category `"a"` is never returned once any participation filter
is provided, whatever the other filters are. -/
theorem c10_lowercase_category_unreachable (db : DataStore) (p : Post)
    (f : String) (s h l : Option String)
    (hp : p.participation_type = some "a") (hf : f ≠ "") :
    p ∉ get_posts_filtered db (some f) s h l := by
  rw [get_posts_filtered_eq_filter]
  intro hmem
  rw [List.mem_filter] at hmem
  have hok := hmem.2
  rw [Bool.and_eq_true, Bool.and_eq_true, Bool.and_eq_true] at hok
  have hpart : amendPartOk (some f) p = true := hok.1.1.1
  simp only [amendPartOk, hp, if_neg hf] at hpart
  have hmm : "a" ∈ pyUpperTrimTokens f := by simpa using hpart
  obtain ⟨t, _, hEq⟩ := List.mem_map.1 hmm
  exact pyUpper_ne_lower_a (pyStrip t) hEq

/-- A post stored through the POST endpoint with the lower-case category. -/
def exPostLowerA : Post := { exPostAlice with participation_type := some "a" }

theorem c10_witness :
    exPostLowerA.participation_type = some "a"
    ∧ ("A" : String) ≠ ""
    ∧ exPostLowerA ∉ get_posts_filtered (runOps [.postOp exPostLowerA]) (some "A")
        none none none :=
  ⟨rfl, by decide,
    c10_lowercase_category_unreachable (runOps [.postOp exPostLowerA]) exPostLowerA "A"
      none none none rfl (by decide)⟩

/-! ## C5: first matching category in the fixed order wins -/

/-- The position of a category in the fixed priority order. -/
def catIdx : PartCat → Nat
  | .A => 0
  | .B => 1
  | .C => 2
  | .D => 3
  | .E => 4

theorem forall_earlier_iff (T : List Char) (c : PartCat) :
    (∀ c' : PartCat, catIdx c' < catIdx c → catMatches c' T = false)
      ↔ (match c with
         | .A => True
         | .B => catMatches .A T = false
         | .C => catMatches .A T = false ∧ catMatches .B T = false
         | .D => catMatches .A T = false ∧ catMatches .B T = false ∧ catMatches .C T = false
         | .E => catMatches .A T = false ∧ catMatches .B T = false ∧ catMatches .C T = false
             ∧ catMatches .D T = false) := by
  cases c
  · constructor
    · intro _
      trivial
    · intro _ c' hlt
      cases c' <;> simp [catIdx] at hlt
  · constructor
    · intro h
      exact h .A (by decide)
    · intro h c' hlt
      cases c' <;> simp_all [catIdx]
  · constructor
    · intro h
      exact ⟨h .A (by decide), h .B (by decide)⟩
    · intro h c' hlt
      cases c' <;> simp_all [catIdx]
  · constructor
    · intro h
      exact ⟨h .A (by decide), h .B (by decide), h .C (by decide)⟩
    · intro h c' hlt
      cases c' <;> simp_all [catIdx]
  · constructor
    · intro h
      exact ⟨h .A (by decide), h .B (by decide), h .C (by decide), h .D (by decide)⟩
    · intro h c' hlt
      cases c' <;> simp_all [catIdx]

theorem forall_cats_iff (T : List Char) :
    (∀ c' : PartCat, catMatches c' T = false)
      ↔ (catMatches .A T = false ∧ catMatches .B T = false ∧ catMatches .C T = false
          ∧ catMatches .D T = false ∧ catMatches .E T = false) := by
  constructor
  · intro h
    exact ⟨h .A, h .B, h .C, h .D, h .E⟩
  · intro h c'
    cases c' <;> tauto

theorem participationOf_first_match (T : List Char) (c : PartCat) :
    (participationOf T = some c ↔
      (catMatches c T = true
        ∧ ∀ c' : PartCat, catIdx c' < catIdx c → catMatches c' T = false))
    ∧ (participationOf T = none ↔ ∀ c' : PartCat, catMatches c' T = false) := by
  rw [forall_earlier_iff, forall_cats_iff]
  cases c <;>
    cases hA : catMatches .A T <;> cases hB : catMatches .B T <;>
      cases hC : catMatches .C T <;> cases hD : catMatches .D T <;>
        cases hE : catMatches .E T <;>
          simp_all [participationOf, PARTICIPATION_ORDER, findCategory]

/-- C5 (confirmed): over the lower-cased concatenation of title, body and
category label, `parse_post`'s participation result is the first category
in the fixed order A, B, C, D, E whose word-boundary trigger patterns
match, and absent exactly when no category's patterns match; when several
categories' triggers co-occur, the earliest in the order wins. -/
theorem c5_priority_order (title content category : String) (c : PartCat) :
    ((parse_post title content category).participation_type = some c ↔
      (catMatches c (searchTextOf title content category) = true
        ∧ ∀ c' : PartCat, catIdx c' < catIdx c →
            catMatches c' (searchTextOf title content category) = false))
    ∧ ((parse_post title content category).participation_type = none ↔
        ∀ c' : PartCat, catMatches c' (searchTextOf title content category) = false) :=
  participationOf_first_match (searchTextOf title content category) c

theorem c5_witness :
    (parse_post "part a and pb" "" "").participation_type = some PartCat.A
    ∧ catMatches .A (searchTextOf "part a and pb" "" "") = true
    ∧ catMatches .B (searchTextOf "part a and pb" "" "") = true := by
  refine ⟨?_, by decide, by decide⟩
  rw [(c5_priority_order "part a and pb" "" "" PartCat.A).1]
  refine ⟨by decide, ?_⟩
  intro c' hlt
  cases c' <;> simp [catIdx] at hlt

/-! ## C4: a category-E classification forces homework reference "N/A" -/

/-- C4 counterexample: the text contains the category-E trigger phrase
"Participation e", but because the category-A trigger also occurs (and A
precedes E in the priority order), classification is A and the homework
pass runs: the result is homework 3, not "N/A". -/
theorem c4_counterexample :
    catMatches .E (searchTextOf "Participation a and Participation e" "HW3" "") = true
    ∧ (parse_post "Participation a and Participation e" "HW3" "").participation_type
        = some PartCat.A
    ∧ (parse_post "Participation a and Participation e" "HW3" "").homework_number = .num 3
    ∧ HWRef.num 3 ≠ HWRef.na :=
  ⟨by decide, by decide, by decide, by decide⟩

/-- C4 (amended): for every input text in which a category-E trigger
phrase occurs AND no earlier-priority category (A-D) trigger occurs —
i.e. whenever the classifier's participation result is E — the homework
reference is the sentinel "N/A", regardless of any homework-number-like
substring in the text. -/
theorem c4_e_trigger_yields_na (title content category : String)
    (hE : catMatches .E (searchTextOf title content category) = true)
    (hA : catMatches .A (searchTextOf title content category) = false)
    (hB : catMatches .B (searchTextOf title content category) = false)
    (hC : catMatches .C (searchTextOf title content category) = false)
    (hD : catMatches .D (searchTextOf title content category) = false) :
    (parse_post title content category).homework_number = HWRef.na := by
  have hpt : participationOf (searchTextOf title content category) = some .E := by
    simp [participationOf, PARTICIPATION_ORDER, findCategory, hA, hB, hC, hD, hE]
  simp [parse_post, hpt]

theorem c4_witness :
    catMatches .E (searchTextOf "Special Participation E HW3" "" "") = true
    ∧ (parse_post "Special Participation E HW3" "" "").homework_number = HWRef.na :=
  ⟨by decide,
    c4_e_trigger_yields_na "Special Participation E HW3" "" "" (by decide) (by decide)
      (by decide) (by decide) (by decide)⟩

/-! ## C3: texts containing "HW0" -/

theorem orElse_isSome_left {α : Type} {a b : Option α} (h : a.isSome) :
    ((a <|> b)).isSome := by
  cases a <;> simp_all [Option.orElse]

theorem orElse_isSome_right {α : Type} {a b : Option α} (h : b.isSome) :
    ((a <|> b)).isSome := by
  cases a <;> simp_all [Option.orElse]

theorem searchHWFallback_isSome_append (l s : List Char)
    (h : (hwFallbackAt s).isSome) : (searchHWFallback (l ++ s)).isSome := by
  induction l with
  | nil =>
    cases s with
    | nil => simpa [searchHWFallback] using h
    | cons c rest =>
      simp only [List.nil_append, searchHWFallback]
      exact orElse_isSome_left h
  | cons c l ih =>
    simp only [List.cons_append, searchHWFallback]
    exact orElse_isSome_right ih

theorem hwFallbackAt_hw0 (r : List Char) :
    hwFallbackAt ('h' :: 'w' :: '0' :: r) = some ('0' :: r.takeWhile Char.isDigit) := rfl

theorem homeworkOf_isNum_of_hw0 (text : List Char)
    (h : ∃ l r, text = l ++ ('h' :: 'w' :: '0' :: r)) :
    ∃ n, homeworkOf text = .num n := by
  obtain ⟨l, r, rfl⟩ := h
  unfold homeworkOf
  cases hp : searchHWFrom false (l ++ ('h' :: 'w' :: '0' :: r)) with
  | some ds => exact ⟨(digitsVal ds : Nat), by simp⟩
  | none =>
    have hs : (searchHWFallback (l ++ ('h' :: 'w' :: '0' :: r))).isSome :=
      searchHWFallback_isSome_append l _ (by rw [hwFallbackAt_hw0]; rfl)
    obtain ⟨ds, hds⟩ := Option.isSome_iff_exists.1 hs
    exact ⟨(digitsVal ds : Nat), by simp [hds]⟩

theorem findCategory_some_matches (l : List PartCat) (text : List Char) (c : PartCat)
    (h : findCategory l text = some c) : catMatches c text = true := by
  induction l with
  | nil => simp [findCategory] at h
  | cons c0 rest ih =>
    by_cases h0 : catMatches c0 text
    · simp only [findCategory, h0, if_true, Option.some.injEq] at h
      rw [← h]
      exact h0
    · simp only [findCategory, h0, if_false] at h
      exact ih h

/-- C3 counterexample: the search text of title "HW01" contains "HW0",
no category-E trigger occurs, yet the classifier's homework reference is
the integer 1 (the greedy digit group of the first homework match), not
the integer 0 demanded by the claim. -/
theorem c3_counterexample :
    (['H', 'W', '0'] <:+: (concatText "HW01" "" "").data)
    ∧ catMatches .E (searchTextOf "HW01" "" "") = false
    ∧ (parse_post "HW01" "" "").homework_number = .num 1 :=
  ⟨⟨[], ['1', ' ', ' '], rfl⟩, by decide, by decide⟩

/-- C3 (amended): for every input whose concatenated search text contains
"HW0" and in which no category-E trigger occurs, the classifier's
homework reference is a concrete integer — never the sentinel "unknown",
never "N/A", never absent; it is the number of the first homework match
of the text, which is 0 when "HW0" is that first match (e.g. for the
input "HW0" itself). -/
theorem c3_hw0_yields_integer (title content category : String)
    (hinf : ['H', 'W', '0'] <:+: (concatText title content category).data)
    (hE : catMatches .E (searchTextOf title content category) = false) :
    (∃ n, (parse_post title content category).homework_number = .num n)
    ∧ (parse_post "HW0" "" "").homework_number = .num 0 := by
  refine ⟨?_, by decide⟩
  have hptE : participationOf (searchTextOf title content category) ≠ some .E := by
    intro hp
    have := findCategory_some_matches PARTICIPATION_ORDER
      (searchTextOf title content category) .E hp
    rw [this] at hE
    simp at hE
  have hdec : ∃ l r, searchTextOf title content category = l ++ ('h' :: 'w' :: '0' :: r) := by
    obtain ⟨s, t, hst⟩ := hinf
    refine ⟨s.map Char.toLower, t.map Char.toLower, ?_⟩
    unfold searchTextOf
    rw [← hst]
    simp only [List.map_append]
    have hmid : (['H', 'W', '0'] : List Char).map Char.toLower = ['h', 'w', '0'] := by decide
    rw [hmid]
    simp [List.append_assoc]
  obtain ⟨n, hn⟩ := homeworkOf_isNum_of_hw0 _ hdec
  refine ⟨n, ?_⟩
  simp only [parse_post, if_neg hptE]
  exact hn

theorem c3_witness :
    (['H', 'W', '0'] <:+: (concatText "Participation A HW0" "" "").data)
    ∧ catMatches .E (searchTextOf "Participation A HW0" "" "") = false
    ∧ (∃ n, (parse_post "Participation A HW0" "" "").homework_number = .num n)
    ∧ (parse_post "Participation A HW0" "" "").homework_number = .num 0 := by
  have hinf : ['H', 'W', '0'] <:+: (concatText "Participation A HW0" "" "").data :=
    ⟨"Participation A ".data, [' ', ' '], rfl⟩
  have hE : catMatches .E (searchTextOf "Participation A HW0" "" "") = false := by decide
  have h := c3_hw0_yields_integer "Participation A HW0" "" "" hinf hE
  exact ⟨hinf, hE, h.1, by decide⟩

/-! ## C6: `get_submission` on an unknown composite key -/

theorem str_data_append (a b : String) : (a ++ b).data = a.data ++ b.data := by
  cases a
  cases b
  rfl

theorem str_ne_empty_of_data_ne (a : String) (h : a.data ≠ []) : a ≠ "" :=
  fun hc => h (congrArg String.data hc)

theorem data_append_ne (a b : String) (h : a.data ≠ []) : (a ++ b).data ≠ [] := by
  rw [str_data_append]
  intro hc
  exact h (List.append_eq_nil.1 hc).1

theorem summaryOverview_data_ne (posts : List Post) (ac : String) :
    (summaryOverview posts ac).data ≠ [] := by
  unfold summaryOverview
  apply data_append_ne
  apply data_append_ne
  apply data_append_ne
  apply data_append_ne
  apply data_append_ne
  apply data_append_ne
  apply data_append_ne
  apply data_append_ne
  decide

theorem generate_executive_summary_ne_empty (posts : List Post) :
    generate_executive_summary posts ≠ "" := by
  unfold generate_executive_summary
  by_cases h1 : posts = []
  · rw [if_pos h1]
    decide
  · rw [if_neg h1]
    by_cases h2 : allContentOf posts = ""
    · simp only [h2, if_pos]
      decide
    · simp only [h2, if_neg, ne_eq, not_false_iff]
      refine str_ne_empty_of_data_ne _ ?_
      apply data_append_ne
      apply data_append_ne
      exact summaryOverview_data_ne posts (allContentOf posts)

/-- C6 (amended): a query whose composite key is absent from the
submissions map never fails: it returns the synthesized response echoing
the query parameters, with a post count equal to the number of stored
posts matching (author, stringified homework, assistant) — 0 when none
match, but positive when matching posts exist without a stored
submission — and a never-empty generated summary; the merge-only fields
stay absent. -/
theorem c6_unknown_key_synthesized (db : DataStore) (student homework llm : String)
    (h : lookupSub db.submissions (student, homework, llm) = none) :
    (get_submission db student homework llm).student = student
    ∧ (get_submission db student homework llm).homework = .ofQuery homework
    ∧ (get_submission db student homework llm).llm = llm
    ∧ (get_submission db student homework llm).post_count
        = (matchingPosts db student homework llm).length
    ∧ (get_submission db student homework llm).summary
        = generate_executive_summary (matchingPosts db student homework llm)
    ∧ (get_submission db student homework llm).summary ≠ ""
    ∧ (get_submission db student homework llm).name = none
    ∧ (get_submission db student homework llm).sub_timestamp = none := by
  simp only [get_submission, h]
  refine ⟨trivial, trivial, trivial, trivial, trivial, ?_, trivial, trivial⟩
  exact generate_executive_summary_ne_empty _

/-- A fully classified post (author, homework 1, assistant Claude) with
no corresponding stored submission. -/
def exPostSub : Post :=
  { exPostAlice with homework_number := some (.num 1), llm_agent := some "Claude" }

/-- C6 counterexample: the composite key (Alice, "1", Claude) is not in
the submissions map, yet `get_submission` reports post_count = 1, not the
0 the claim demands: a matching post exists without a stored submission. -/
theorem c6_counterexample :
    lookupSub (runOps [.postOp exPostSub]).submissions ("Alice", "1", "Claude") = none
    ∧ (get_submission (runOps [.postOp exPostSub]) "Alice" "1" "Claude").post_count = 1 := by
  exact ⟨rfl, by decide⟩

theorem c6_witness :
    lookupSub (runOps []).submissions ("X", "1", "Y") = none
    ∧ (get_submission (runOps []) "X" "1" "Y").post_count
        = (matchingPosts (runOps []) "X" "1" "Y").length
    ∧ (get_submission (runOps []) "X" "1" "Y").summary ≠ "" := by
  have h : lookupSub (runOps []).submissions ("X", "1", "Y") = none := rfl
  have hc := c6_unknown_key_synthesized (runOps []) "X" "1" "Y" h
  exact ⟨h, hc.2.2.2.1, hc.2.2.2.2.2.1⟩

/-! ## C9: the shape of `generate_executive_summary` -/

theorem sInfix_self (a : String) : a.data <:+: a.data :=
  ⟨[], [], by simp⟩

theorem sInfix_app_left {t : List Char} (a b : String) (h : t <:+: a.data) :
    t <:+: (a ++ b).data := by
  obtain ⟨s, u, hsu⟩ := h
  exact ⟨s, u ++ b.data, by rw [str_data_append, ← hsu]; simp [List.append_assoc]⟩

theorem sInfix_app_right {t : List Char} (a b : String) (h : t <:+: b.data) :
    t <:+: (a ++ b).data := by
  obtain ⟨s, u, hsu⟩ := h
  exact ⟨a.data ++ s, u, by rw [str_data_append, ← hsu]; simp [List.append_assoc]⟩

theorem sSuffix_self (a : String) : a.data <:+ a.data :=
  ⟨[], by simp⟩

theorem sSuffix_app_right {t : List Char} (a b : String) (h : t <:+ b.data) :
    t <:+ (a ++ b).data := by
  obtain ⟨s, hs⟩ := h
  exact ⟨a.data ++ s, by rw [str_data_append, ← hs]; simp [List.append_assoc]⟩

theorem detailBlocks_ends : ∀ (l : List Post) (i : Nat), l ≠ [] →
    ∃ z, (detailBlocks i l).data = z ++ ['\n', '\n']
  | [], _, h => absurd rfl h
  | [p], i, _ =>
    ⟨(toString i ++ ". " ++ p.title ++ " by " ++ p.author ++ "\n   "
        ++ (if p.content.length > 200 then pyTake p.content 200 ++ "..."
            else p.content)).data,
      by simp [detailBlocks, detailBlock, str_data_append, List.append_assoc]⟩
  | p :: q :: rest, i, _ => by
    obtain ⟨z, hz⟩ := detailBlocks_ends (q :: rest) (i + 1) (by simp)
    refine ⟨(detailBlock i p).data ++ z, ?_⟩
    show (detailBlock i p ++ detailBlocks (i + 1) (q :: rest)).data
        = (detailBlock i p).data ++ z ++ ['\n', '\n']
    rw [str_data_append, hz]
    simp [List.append_assoc]

/-- C9 (amended): on the empty list the summary is the fixed "no posts"
message; on a non-empty list all of whose contents are empty it is the
fixed "no content" message; on any other list it is a report containing
the word/character-count line, the sorted distinct authors, (truthy)
homework-references, assistant-names and participation-types lines, the
key-points line built from the first five "."-delimited fragments, the
detail blocks of the first three posts, and it ends with the
"... and N more post(s)" note exactly when the list exceeds three posts. -/
theorem c9_summary_shape (posts : List Post) (out : String)
    (hout : out = generate_executive_summary posts) :
    (posts = [] → out = "No posts available to generate summary.")
    ∧ (posts ≠ [] → allContentOf posts = "" →
        out = "No content available in posts to generate summary.")
    ∧ (posts ≠ [] → allContentOf posts ≠ "" →
        ((totalPostsLine posts).data <:+: out.data
          ∧ (contentLengthLine (allContentOf posts)).data <:+: out.data
          ∧ (authorsLine posts).data <:+: out.data
          ∧ (homeworksLine posts).data <:+: out.data
          ∧ (llmsLine posts).data <:+: out.data
          ∧ (partTypesLine posts).data <:+: out.data
          ∧ (keyPointsLine (allContentOf posts)).data <:+: out.data
          ∧ (detailBlocks 1 (posts.take 3)).data <:+: out.data
          ∧ (posts.length > 3 →
              ("... and " ++ toString (posts.length - 3) ++ " more post(s)\n").data
                <:+ out.data)
          ∧ (posts.length ≤ 3 → ¬ (("more post(s)\n").data <:+ out.data)))) := by
  refine ⟨?_, ?_, ?_⟩
  · intro h1
    rw [hout]
    unfold generate_executive_summary
    rw [if_pos h1]
  · intro h1 h2
    rw [hout]
    simp only [generate_executive_summary, if_neg h1, h2, if_pos]
  · intro h1 h2
    have hgen : out = summaryOverview posts (allContentOf posts)
        ++ summaryContentAnalysis (allContentOf posts) ++ summaryDetails posts := by
      rw [hout]
      simp only [generate_executive_summary, if_neg h1, if_neg h2]
    rw [hgen]
    refine ⟨?_, ?_, ?_, ?_, ?_, ?_, ?_, ?_, ?_, ?_⟩
    · exact sInfix_app_left _ _ (sInfix_app_left _ _ (by
        unfold summaryOverview
        exact sInfix_app_left _ _ (sInfix_app_left _ _ (sInfix_app_left _ _
          (sInfix_app_left _ _ (sInfix_app_left _ _
            (sInfix_app_right _ _ (sInfix_self _))))))))
    · exact sInfix_app_left _ _ (sInfix_app_left _ _ (by
        unfold summaryOverview
        exact sInfix_app_left _ _ (sInfix_app_left _ _ (sInfix_app_left _ _
          (sInfix_app_left _ _ (sInfix_app_right _ _ (sInfix_self _)))))))
    · exact sInfix_app_left _ _ (sInfix_app_left _ _ (by
        unfold summaryOverview
        exact sInfix_app_left _ _ (sInfix_app_left _ _ (sInfix_app_left _ _
          (sInfix_app_right _ _ (sInfix_self _))))))
    · exact sInfix_app_left _ _ (sInfix_app_left _ _ (by
        unfold summaryOverview
        exact sInfix_app_left _ _ (sInfix_app_left _ _
          (sInfix_app_right _ _ (sInfix_self _)))))
    · exact sInfix_app_left _ _ (sInfix_app_left _ _ (by
        unfold summaryOverview
        exact sInfix_app_left _ _ (sInfix_app_right _ _ (sInfix_self _))))
    · exact sInfix_app_left _ _ (sInfix_app_left _ _ (by
        unfold summaryOverview
        exact sInfix_app_right _ _ (sInfix_self _)))
    · exact sInfix_app_left _ _ (sInfix_app_right _ _ (by
        unfold summaryContentAnalysis
        exact sInfix_app_right _ _ (sInfix_self _)))
    · exact sInfix_app_right _ _ (by
        unfold summaryDetails
        exact sInfix_app_left _ _ (sInfix_app_right _ _ (sInfix_self _)))
    · intro hgt
      refine sSuffix_app_right _ _ ?_
      unfold summaryDetails morePostsNote
      rw [if_pos hgt]
      exact sSuffix_app_right _ _ (sSuffix_self _)
    · intro hle hcontra
      have hnote : morePostsNote posts = "" := by
        unfold morePostsNote
        rw [if_neg (by omega)]
      have htake : posts.take 3 ≠ [] := by
        obtain ⟨b, L, hbl⟩ := List.exists_cons_of_ne_nil h1
        rw [hbl]
        simp [List.take_cons]
      obtain ⟨z, hz⟩ := detailBlocks_ends (posts.take 3) 1 htake
      have hsuf : ['\n', '\n'] <:+ (summaryOverview posts (allContentOf posts)
          ++ summaryContentAnalysis (allContentOf posts) ++ summaryDetails posts).data := by
        refine ⟨(summaryOverview posts (allContentOf posts)
            ++ summaryContentAnalysis (allContentOf posts)).data
              ++ ("Details:\n".data ++ z), ?_⟩
        unfold summaryDetails
        rw [hnote]
        simp only [str_data_append]
        rw [hz]
        simp [List.append_assoc]
      have hsub := List.suffix_of_suffix_length_le hsuf hcontra (by decide)
      exact absurd hsub (by decide)

/-- An all-empty-content post list for the C9 counterexample. -/
theorem c9_counterexample :
    generate_executive_summary [exPostAlice]
        = "No content available in posts to generate summary."
    ∧ ¬ ("Alice".data <:+: (generate_executive_summary [exPostAlice]).data) := by
  refine ⟨by decide, by decide⟩

/-- Four posts with non-empty contents (for the C9 witness). -/
def exPostsFour : List Post :=
  [ { exPostAlice with content := "One." },
    { exPostAlice with post_id := 2, content := "Two." },
    { exPostAlice with post_id := 3, content := "Three." },
    { exPostAlice with post_id := 4, content := "Four." } ]

theorem c9_witness :
    exPostsFour ≠ []
    ∧ allContentOf exPostsFour ≠ ""
    ∧ (totalPostsLine exPostsFour).data
        <:+: (generate_executive_summary exPostsFour).data
    ∧ ("... and " ++ toString (exPostsFour.length - 3) ++ " more post(s)\n").data
        <:+ (generate_executive_summary exPostsFour).data := by
  have h1 : exPostsFour ≠ [] := by decide
  have h2 : allContentOf exPostsFour ≠ "" := by decide
  have hc := (c9_summary_shape exPostsFour
      (generate_executive_summary exPostsFour) rfl).2.2 h1 h2
  exact ⟨h1, h2, hc.1, hc.2.2.2.2.2.2.2.2.1 (by decide)⟩
